import Mathlib

/-
Verification of the redismodule-rs binding layer.

The development shallowly embeds the two source files:
  src/redismodule.rs : the Result/Value/Error model, the argument-extraction
    helpers (NextArg), and the lifetime-managed string handle (RedisString).
  src/zset.rs : the bounded bidirectional score-range iterator over a
    sorted-set key (ZSetScoreIterator) and its bound extraction.

Host primitives (the Redis module API: key type classification, cursor
open/advance/stop, native string allocation) are not part of the sources;
they are modelled from the specification and each such definition is marked
with a doc comment starting with Modelled from the spec.
-/

/-- RedisError from src/redismodule.rs: WrongArity, a fixed static message
(Str), or an owned message (String). -/
inductive RedisError where
  | WrongArity : RedisError
  | Str : String → RedisError
  | String : String → RedisError
deriving DecidableEq, Repr

/-- RedisValue from src/redismodule.rs: the closed set of reply variants. -/
inductive RedisValue where
  | SimpleStringStatic : String → RedisValue
  | SimpleString : String → RedisValue
  | BulkString : String → RedisValue
  | Integer : Int → RedisValue
  | Array : List RedisValue → RedisValue
  | None : RedisValue
deriving Repr

/-- RedisResult from src/redismodule.rs, at its value type. -/
abbrev RedisResult := Except RedisError RedisValue

/-- REDIS_OK from src/redismodule.rs. -/
def REDIS_OK : RedisResult := Except.ok (RedisValue.SimpleStringStatic "OK")

/-- Helper vocabulary: a value is status text when it is one of the two
simple-string variants. -/
def RedisValue.isStatusText : RedisValue → Bool
  | RedisValue.SimpleStringStatic _ => true
  | RedisValue.SimpleString _ => true
  | _ => false

/-- Helper vocabulary: a value is bulk text when it is the BulkString
variant. -/
def RedisValue.isBulkText : RedisValue → Bool
  | RedisValue.BulkString _ => true
  | _ => false

/-- impl From i64 for RedisValue. -/
def RedisValue.fromI64 (i : Int) : RedisValue := RedisValue.Integer i

/-- impl From unit for RedisValue. -/
def RedisValue.fromUnit : RedisValue := RedisValue.None

/-- impl From String for RedisValue: an owned string becomes SimpleString. -/
def RedisValue.fromString (s : String) : RedisValue := RedisValue.SimpleString s

/-- impl From borrowed str for RedisValue: the source converts the borrowed
text to an owned String and delegates to the String conversion. -/
def RedisValue.fromStr (s : String) : RedisValue := RedisValue.fromString s

/-- impl From Vec String for RedisValue: each element becomes BulkString and
the results are collected into Array. -/
def RedisValue.fromVecString (strings : List String) : RedisValue :=
  RedisValue.Array (strings.map RedisValue.BulkString)

/-- impl From Vec i64 for RedisValue. -/
def RedisValue.fromVecI64 (nums : List Int) : RedisValue :=
  RedisValue.Array (nums.map RedisValue.Integer)

/-- The cast i as i64 applied to a usize value, on a 64-bit platform: the
two complement reinterpretation of n mod 2 ^ 64 as a signed 64-bit value. -/
def usizeAsI64 (n : Nat) : Int :=
  if n % 2 ^ 64 < 2 ^ 63 then ((n % 2 ^ 64 : Nat) : Int)
  else ((n % 2 ^ 64 : Nat) : Int) - 2 ^ 64

/-- impl From usize for RedisValue: (i as i64).into(). -/
def RedisValue.fromUsize (n : Nat) : RedisValue := RedisValue.fromI64 (usizeAsI64 n)

/-- Model of the Rust standard library parse to i64 (i64 from_str): an
optional single leading plus or minus sign, then one or more ASCII decimal
digits, with the resulting value required to fit in the signed 64-bit
range. -/
def parseI64 (s : String) : Option Int :=
  match s.data with
  | [] => none
  | c :: cs =>
    let signedRest : Bool × List Char :=
      if c = Char.ofNat 45 then (true, cs)
      else if c = Char.ofNat 43 then (false, cs)
      else (false, c :: cs)
    let neg := signedRest.1
    let ds := signedRest.2
    if ds.isEmpty then none
    else if ds.all Char.isDigit then
      let mag : Nat := ds.foldl (fun acc d => acc * 10 + (d.toNat - 48)) 0
      let v : Int := if neg then -(mag : Int) else (mag : Int)
      if -(2 ^ 63) ≤ v ∧ v < 2 ^ 63 then some v else none
    else none

/-- parse_integer from src/redismodule.rs: on parse failure it returns the
owned-message error whose text is a fixed prefix followed by the offending
argument. -/
def parse_integer (arg : String) : Except RedisError Int :=
  match parseI64 arg with
  | some v => Except.ok v
  | none => Except.error (RedisError.String ("Couldn\x27t parse as integer: " ++ arg))

/-- next_string from the NextArg impl in src/redismodule.rs: the iterator is
modelled as the list of remaining tokens; the result is paired with the
tokens left after the call. -/
def next_string : List String → Except RedisError String × List String
  | [] => (Except.error RedisError.WrongArity, [])
  | t :: ts => (Except.ok t, ts)

/-- next_i64 from the NextArg impl in src/redismodule.rs. -/
def next_i64 : List String → Except RedisError Int × List String
  | [] => (Except.error RedisError.WrongArity, [])
  | t :: ts => (parse_integer t, ts)

/-- C4: on an empty remaining token sequence both next_string and next_i64
fail with exactly the WrongArity error (no other error kind, in particular
no parse error). -/
theorem next_on_empty_is_wrong_arity :
    (next_string []).1 = Except.error RedisError.WrongArity ∧
    (next_i64 []).1 = Except.error RedisError.WrongArity :=
  ⟨rfl, rfl⟩

/-- C5: with at least one remaining token, next_i64 succeeds exactly when the
token parses as a base-10 signed 64-bit integer; on failure the error is the
owned-message variant whose message is the fixed prefix followed by the
offending token verbatim, and no other error variant ever occurs. -/
theorem next_i64_nonempty_spec (t : String) (ts : List String) :
    (∀ v : Int, parseI64 t = some v → (next_i64 (t :: ts)).1 = Except.ok v) ∧
    (parseI64 t = none →
      (next_i64 (t :: ts)).1 =
        Except.error (RedisError.String ("Couldn\x27t parse as integer: " ++ t))) ∧
    (∀ e : RedisError, (next_i64 (t :: ts)).1 = Except.error e →
      ∃ m : String, e = RedisError.String m) := by
  refine ⟨?_, ?_, ?_⟩
  · intro v hv
    simp [next_i64, parse_integer, hv]
  · intro hv
    simp [next_i64, parse_integer, hv]
  · intro e he
    simp only [next_i64, parse_integer] at he
    cases hp : parseI64 t with
    | none =>
      rw [hp] at he
      exact ⟨"Couldn\x27t parse as integer: " ++ t, by simpa using he.symm⟩
    | some v =>
      rw [hp] at he
      simp at he

/-- C5 witness: next_i64 on a parseable token succeeds with its value, and on
a malformed token fails with the owned message carrying the token. -/
theorem next_i64_nonempty_spec_witness :
    (next_i64 ["12a"]).1 =
      Except.error (RedisError.String ("Couldn\x27t parse as integer: " ++ "12a")) :=
  (next_i64_nonempty_spec "12a" []).2.1 (by decide)

/-- C6: converting a sequence of owned strings into a value yields the Array
variant whose elements are exactly the BulkString images in the same order
and of the same length, and no element is a status-text variant. -/
theorem from_vec_string_spec (S : List String) :
    RedisValue.fromVecString S = RedisValue.Array (S.map RedisValue.BulkString) ∧
    (S.map RedisValue.BulkString).length = S.length ∧
    (∀ i : Fin S.length,
      (S.map RedisValue.BulkString)[(i : Nat)]? = some (RedisValue.BulkString (S.get i))) ∧
    (S.map RedisValue.BulkString).all
      (fun e => e.isBulkText && !e.isStatusText) = true := by
  refine ⟨rfl, by simp, ?_, ?_⟩
  · intro i
    simp [List.getElem?_map, List.get_eq_getElem]
  · induction S with
    | nil => rfl
    | cons s S ih => simp [RedisValue.isBulkText, RedisValue.isStatusText, ih]

/-- C6 witness: the conversion at a concrete two-element sequence. -/
theorem from_vec_string_spec_witness :
    RedisValue.fromVecString ["a", "b"] =
      RedisValue.Array [RedisValue.BulkString "a", RedisValue.BulkString "b"] :=
  (from_vec_string_spec ["a", "b"]).1

/-- C7 counterexample: converting the unsigned size 2 ^ 63 yields the Integer
variant holding the wrapped value minus 2 ^ 63, not 2 ^ 63 itself, so the
converted integer does not equal the original size. -/
theorem from_usize_not_value_preserving :
    RedisValue.fromUsize (2 ^ 63) = RedisValue.Integer (-(2 ^ 63)) ∧
    RedisValue.fromUsize (2 ^ 63) ≠ RedisValue.Integer (2 ^ 63) := by
  constructor
  · simp only [RedisValue.fromUsize, RedisValue.fromI64, usizeAsI64]
    norm_num
  · simp only [RedisValue.fromUsize, RedisValue.fromI64, usizeAsI64]
    intro h
    injection h with h
    norm_num at h

/-- C7 amended: the conversion from an unsigned size is total and yields the
Integer variant holding the two complement reinterpretation of the size; the
integer value equals the size exactly when the size is below 2 ^ 63, and for
larger sizes it equals the size minus 2 ^ 64. -/
theorem from_usize_spec (n : Nat) (h : n < 2 ^ 64) :
    RedisValue.fromUsize n = RedisValue.Integer (usizeAsI64 n) ∧
    (n < 2 ^ 63 → RedisValue.fromUsize n = RedisValue.Integer (n : Int)) ∧
    (2 ^ 63 ≤ n → RedisValue.fromUsize n = RedisValue.Integer ((n : Int) - 2 ^ 64)) := by
  have hmod : n % 2 ^ 64 = n := Nat.mod_eq_of_lt h
  refine ⟨rfl, ?_, ?_⟩
  · intro hlt
    simp only [RedisValue.fromUsize, RedisValue.fromI64, usizeAsI64, hmod, if_pos hlt]
  · intro hge
    have : ¬ n < 2 ^ 63 := by omega
    simp only [RedisValue.fromUsize, RedisValue.fromI64, usizeAsI64, hmod, if_neg this]

/-- C7 witness: the conversion at the concrete size 5 is the integer 5. -/
theorem from_usize_spec_witness :
    RedisValue.fromUsize 5 = RedisValue.Integer (5 : Int) :=
  (from_usize_spec 5 (by norm_num)).2.1 (by norm_num)

/-- C10: converting an owned string and converting the same borrowed text
into a value agree, both yielding the owned status-text variant SimpleString,
never the bulk-text variant, while a one-element sequence of strings becomes
an Array holding a BulkString. -/
theorem string_conversions_agree (s : String) :
    RedisValue.fromString s = RedisValue.SimpleString s ∧
    RedisValue.fromStr s = RedisValue.fromString s ∧
    (RedisValue.fromString s).isStatusText = true ∧
    (RedisValue.fromString s).isBulkText = false ∧
    RedisValue.fromVecString [s] = RedisValue.Array [RedisValue.BulkString s] :=
  ⟨rfl, rfl, rfl, rfl, rfl⟩

/-- C10 witness: the two conversions at a concrete string. -/
theorem string_conversions_agree_witness :
    RedisValue.fromStr "x" = RedisValue.fromString "x" :=
  (string_conversions_agree "x").2.1

/-- UTF-8 encoding of one character, in arithmetic form: one byte below 128,
two bytes below 2048, three bytes below 65536, four bytes otherwise. -/
def utf8EncodeChar (c : Char) : List Nat :=
  let n := c.toNat
  if n < 128 then [n]
  else if n < 2048 then [192 + n / 64, 128 + n % 64]
  else if n < 65536 then [224 + n / 4096, 128 + n / 64 % 64, 128 + n % 64]
  else [240 + n / 262144, 128 + n / 4096 % 64, 128 + n / 64 % 64, 128 + n % 64]

/-- UTF-8 encoding of a character sequence, the byte representation that the
Rust str type guarantees for its contents. -/
def utf8Encode : List Char → List Nat
  | [] => []
  | c :: cs => utf8EncodeChar c ++ utf8Encode cs

/-- Model of one step of the Rust standard library from_utf8 validation and
decoding: read one scalar value off the front of the byte sequence, with
leading-byte dispatch, continuation-byte checks, and rejection of overlong
forms, surrogate code points and out-of-range code points. -/
def utf8DecodeOne : List Nat → Option (Nat × List Nat)
  | [] => none
  | b0 :: bs =>
    if b0 < 128 then some (b0, bs)
    else if 192 ≤ b0 ∧ b0 < 224 then
      match bs with
      | b1 :: bs2 =>
        if 128 ≤ b1 ∧ b1 < 192 then
          let n := (b0 - 192) * 64 + (b1 - 128)
          if 128 ≤ n then some (n, bs2) else none
        else none
      | [] => none
    else if 224 ≤ b0 ∧ b0 < 240 then
      match bs with
      | b1 :: b2 :: bs3 =>
        if (128 ≤ b1 ∧ b1 < 192) ∧ (128 ≤ b2 ∧ b2 < 192) then
          let n := (b0 - 224) * 4096 + (b1 - 128) * 64 + (b2 - 128)
          if 2048 ≤ n ∧ ¬ (55296 ≤ n ∧ n < 57344) then some (n, bs3) else none
        else none
      | _ => none
    else if 240 ≤ b0 ∧ b0 < 248 then
      match bs with
      | b1 :: b2 :: b3 :: bs4 =>
        if (128 ≤ b1 ∧ b1 < 192) ∧ (128 ≤ b2 ∧ b2 < 192) ∧ (128 ≤ b3 ∧ b3 < 192) then
          let n := (b0 - 240) * 262144 + (b1 - 128) * 4096 + (b2 - 128) * 64 + (b3 - 128)
          if 65536 ≤ n ∧ n < 1114112 then some (n, bs4) else none
        else none
      | _ => none
    else none

/-- Each successful one-scalar decode consumes at least one byte. -/
theorem utf8DecodeOne_length {l : List Nat} {n : Nat} {rest : List Nat}
    (h : utf8DecodeOne l = some (n, rest)) : rest.length < l.length := by
  match l with
  | [] => exact absurd h (by simp [utf8DecodeOne])
  | b0 :: bs =>
    simp only [utf8DecodeOne] at h
    repeat' split at h
    all_goals first
      | exact Option.noConfusion h
      | (injection h with h
         injection h with h1 h2
         subst h2
         simp only [List.length_cons]
         omega)

/-- Model of the Rust standard library from_utf8: decode scalar values one at
a time until the byte sequence is exhausted; any invalid prefix fails the
whole decoding. -/
def utf8Decode (l : List Nat) : Option (List Char) :=
  match _h : utf8DecodeOne l with
  | some (n, rest) => (utf8Decode rest).map (fun cs => Char.ofNat n :: cs)
  | none => if l.isEmpty then some [] else none
termination_by l.length
decreasing_by exact utf8DecodeOne_length _h

/-- Unfolding of utf8Decode on a sequence whose first scalar decodes. -/
theorem utf8Decode_some {l : List Nat} {n : Nat} {rest : List Nat}
    (h : utf8DecodeOne l = some (n, rest)) :
    utf8Decode l = (utf8Decode rest).map (fun cs => Char.ofNat n :: cs) := by
  rw [utf8Decode.eq_def]
  split
  · next n2 rest2 heq =>
    rw [h] at heq
    injection heq with heq
    injection heq with e1 e2
    subst e1
    subst e2
    rfl
  · next heq =>
    rw [h] at heq
    exact Option.noConfusion heq

/-- Decoding the empty byte sequence yields the empty text. -/
theorem utf8Decode_nil : utf8Decode [] = some [] := by
  rw [utf8Decode.eq_def]
  simp [utf8DecodeOne]

/-- Code points of Lean characters are valid Unicode scalar values. -/
theorem char_toNat_valid (c : Char) :
    c.toNat < 55296 ∨ (57343 < c.toNat ∧ c.toNat < 1114112) := c.valid

/-- Decoding one scalar off an encoded character recovers its code point and
leaves the remaining bytes untouched. -/
theorem utf8DecodeOne_encodeChar (c : Char) (rest : List Nat) :
    utf8DecodeOne (utf8EncodeChar c ++ rest) = some (c.toNat, rest) := by
  have hval := char_toNat_valid c
  by_cases h1 : c.toNat < 128
  · have henc : utf8EncodeChar c = [c.toNat] := by simp [utf8EncodeChar, h1]
    rw [henc, List.cons_append, List.nil_append]
    simp [utf8DecodeOne, h1]
  · by_cases h2 : c.toNat < 2048
    · have henc : utf8EncodeChar c = [192 + c.toNat / 64, 128 + c.toNat % 64] := by
        simp [utf8EncodeChar, h1, h2]
      have hA : ¬ (192 + c.toNat / 64 < 128) := by omega
      have hB1 : 192 ≤ 192 + c.toNat / 64 := by omega
      have hB2 : 192 + c.toNat / 64 < 224 := by omega
      have hC1 : 128 ≤ 128 + c.toNat % 64 := by omega
      have hC2 : 128 + c.toNat % 64 < 192 := by omega
      have hE : (192 + c.toNat / 64 - 192) * 64 + (128 + c.toNat % 64 - 128) = c.toNat := by
        omega
      have h128 : 128 ≤ c.toNat := by omega
      rw [henc, List.cons_append, List.cons_append, List.nil_append]
      simp [utf8DecodeOne, hA, hB1, hB2, hC1, hC2, hE, h128]
      omega
    · by_cases h3 : c.toNat < 65536
      · have henc : utf8EncodeChar c =
            [224 + c.toNat / 4096, 128 + c.toNat / 64 % 64, 128 + c.toNat % 64] := by
          simp [utf8EncodeChar, h1, h2, h3]
        have hA : ¬ (224 + c.toNat / 4096 < 128) := by omega
        have hA2 : ¬ (192 ≤ 224 + c.toNat / 4096 ∧ 224 + c.toNat / 4096 < 224) := by omega
        have hB1 : 224 ≤ 224 + c.toNat / 4096 := by omega
        have hB2 : 224 + c.toNat / 4096 < 240 := by omega
        have hC1 : 128 ≤ 128 + c.toNat / 64 % 64 := by omega
        have hC2 : 128 + c.toNat / 64 % 64 < 192 := by omega
        have hD1 : 128 ≤ 128 + c.toNat % 64 := by omega
        have hD2 : 128 + c.toNat % 64 < 192 := by omega
        have hE : (224 + c.toNat / 4096 - 224) * 4096 + (128 + c.toNat / 64 % 64 - 128) * 64 +
            (128 + c.toNat % 64 - 128) = c.toNat := by omega
        have hR1 : 2048 ≤ c.toNat := by omega
        have hR2 : ¬ (55296 ≤ c.toNat ∧ c.toNat < 57344) := by omega
        rw [henc, List.cons_append, List.cons_append, List.cons_append, List.nil_append]
        simp [utf8DecodeOne, hA, hA2, hB1, hB2, hC1, hC2, hD1, hD2, hE, hR1, hR2]
        omega
      · have h4 : c.toNat < 1114112 := by omega
        have henc : utf8EncodeChar c =
            [240 + c.toNat / 262144, 128 + c.toNat / 4096 % 64,
             128 + c.toNat / 64 % 64, 128 + c.toNat % 64] := by
          simp [utf8EncodeChar, h1, h2, h3]
        have hA : ¬ (240 + c.toNat / 262144 < 128) := by omega
        have hA2 : ¬ (192 ≤ 240 + c.toNat / 262144 ∧ 240 + c.toNat / 262144 < 224) := by omega
        have hA3 : ¬ (224 ≤ 240 + c.toNat / 262144 ∧ 240 + c.toNat / 262144 < 240) := by omega
        have hB1 : 240 ≤ 240 + c.toNat / 262144 := by omega
        have hB2 : 240 + c.toNat / 262144 < 248 := by omega
        have hC1 : 128 ≤ 128 + c.toNat / 4096 % 64 := by omega
        have hC2 : 128 + c.toNat / 4096 % 64 < 192 := by omega
        have hD1 : 128 ≤ 128 + c.toNat / 64 % 64 := by omega
        have hD2 : 128 + c.toNat / 64 % 64 < 192 := by omega
        have hF1 : 128 ≤ 128 + c.toNat % 64 := by omega
        have hF2 : 128 + c.toNat % 64 < 192 := by omega
        have hE : (240 + c.toNat / 262144 - 240) * 262144 +
            (128 + c.toNat / 4096 % 64 - 128) * 4096 +
            (128 + c.toNat / 64 % 64 - 128) * 64 + (128 + c.toNat % 64 - 128) = c.toNat := by
          omega
        have hR1 : 65536 ≤ c.toNat := by omega
        rw [henc, List.cons_append, List.cons_append, List.cons_append, List.cons_append,
          List.nil_append]
        simp [utf8DecodeOne, hA, hA2, hA3, hB1, hB2, hC1, hC2, hD1, hD2, hF1, hF2, hE, hR1, h4]
        omega

/-- Decoding an encoded character followed by arbitrary bytes recovers the
character and continues with the remaining bytes. -/
theorem utf8Decode_encodeChar (c : Char) (rest : List Nat) :
    utf8Decode (utf8EncodeChar c ++ rest) = (utf8Decode rest).map (fun cs => c :: cs) := by
  rw [utf8Decode_some (utf8DecodeOne_encodeChar c rest), Char.ofNat_toNat]

/-- The UTF-8 round-trip: decoding the encoding of any character sequence
succeeds and returns the sequence. -/
theorem utf8Decode_encode (cs : List Char) : utf8Decode (utf8Encode cs) = some cs := by
  induction cs with
  | nil => exact utf8Decode_nil
  | cons c cs ih =>
    rw [utf8Encode, utf8Decode_encodeChar, ih]
    rfl

/-- Only the NUL character contributes a zero byte to the encoding. -/
theorem zero_mem_utf8EncodeChar {c : Char} (h : (0 : Nat) ∈ utf8EncodeChar c) :
    c = Char.ofNat 0 := by
  have hToNat : c.toNat = 0 := by
    by_cases h1 : c.toNat < 128
    · have henc : utf8EncodeChar c = [c.toNat] := by simp [utf8EncodeChar, h1]
      rw [henc] at h
      simp at h
      omega
    · by_cases h2 : c.toNat < 2048
      · have henc : utf8EncodeChar c = [192 + c.toNat / 64, 128 + c.toNat % 64] := by
          simp [utf8EncodeChar, h1, h2]
        rw [henc] at h
        simp at h
        omega
      · by_cases h3 : c.toNat < 65536
        · have henc : utf8EncodeChar c =
              [224 + c.toNat / 4096, 128 + c.toNat / 64 % 64, 128 + c.toNat % 64] := by
            simp [utf8EncodeChar, h1, h2, h3]
          rw [henc] at h
          simp at h
          omega
        · have henc : utf8EncodeChar c =
              [240 + c.toNat / 262144, 128 + c.toNat / 4096 % 64,
               128 + c.toNat / 64 % 64, 128 + c.toNat % 64] := by
            simp [utf8EncodeChar, h1, h2, h3]
          rw [henc] at h
          simp at h
          omega
  rw [← Char.ofNat_toNat c, hToNat]

/-- A zero byte occurs in the encoding of a text exactly when the text
contains the NUL character. -/
theorem zero_mem_utf8Encode_iff (cs : List Char) :
    (0 : Nat) ∈ utf8Encode cs ↔ Char.ofNat 0 ∈ cs := by
  induction cs with
  | nil => simp [utf8Encode]
  | cons c cs ih =>
    rw [utf8Encode]
    simp only [List.mem_append, List.mem_cons, ih]
    constructor
    · rintro (h | h)
      · exact Or.inl (zero_mem_utf8EncodeChar h).symm
      · exact Or.inr h
    · rintro (h | h)
      · refine Or.inl ?_
        rw [← h]
        decide
      · exact Or.inr h

/-- Modelled from the spec: the host native string allocation, an opaque
RedisModuleString pointer holding the copied bytes (the raw bindings are
outside src). -/
structure RedisModuleString where
  bytes : List Nat
deriving DecidableEq, Repr

/-- Model of the Rust CString constructor used by RedisString::create: it
fails exactly when the byte sequence contains an interior NUL byte, and
otherwise preserves the bytes. -/
def cstringNew (bytes : List Nat) : Option (List Nat) :=
  if 0 ∈ bytes then none else some bytes

/-- Modelled from the spec: RedisModule_CreateString copies the given bytes
into a fresh host allocation under the given context (the raw bindings are
outside src). -/
def RedisModule_CreateString (_ctx : Nat) (bytes : List Nat) : RedisModuleString :=
  ⟨bytes⟩

/-- Modelled from the spec: RedisModule_StringPtrLen returns the pointer and
length of the stored bytes, here the byte sequence itself (the raw bindings
are outside src). -/
def RedisModule_StringPtrLen (ptr : RedisModuleString) : List Nat :=
  ptr.bytes

/-- RedisString from src/redismodule.rs: the context it was created under and
the owned native allocation. -/
structure RedisString where
  ctx : Nat
  inner : RedisModuleString
deriving DecidableEq, Repr

/-- The observable outcome of a call that may panic: CString::new(s).unwrap()
aborts on an interior NUL byte. -/
inductive Panicked where
  | NulError : Panicked
deriving DecidableEq, Repr

/-- A UTF-8 validation failure, the error type of str::from_utf8. -/
inductive Utf8Error where
  | Invalid : Utf8Error
deriving DecidableEq, Repr

/-- RedisString::create from src/redismodule.rs: build a CString from the
text (panicking on interior NUL), then hand its bytes and length to the host
allocation primitive. -/
def RedisString.create (ctx : Nat) (s : String) : Except Panicked RedisString :=
  match cstringNew (utf8Encode s.data) with
  | none => Except.error Panicked.NulError
  | some bytes => Except.ok ⟨ctx, RedisModule_CreateString ctx bytes⟩

/-- RedisString::from_ptr from src/redismodule.rs: read the pointer and
length from the host and validate the bytes as UTF-8, returning borrowed
text or a UTF-8 error. -/
def RedisString.from_ptr (ptr : RedisModuleString) : Except Utf8Error String :=
  match utf8Decode (RedisModule_StringPtrLen ptr) with
  | some cs => Except.ok (String.mk cs)
  | none => Except.error Utf8Error.Invalid

/-- C8: for every text without an embedded NUL character, creating a
RedisString under a context and then viewing the resulting native pointer
yields text equal to the original (create/view round-trip). -/
theorem create_from_ptr_roundtrip (ctx : Nat) (s : String)
    (h : Char.ofNat 0 ∉ s.data) :
    ∃ rs : RedisString, RedisString.create ctx s = Except.ok rs ∧
      RedisString.from_ptr rs.inner = Except.ok s := by
  have h0 : (0 : Nat) ∉ utf8Encode s.data := fun hm =>
    h ((zero_mem_utf8Encode_iff s.data).1 hm)
  refine ⟨⟨ctx, ⟨utf8Encode s.data⟩⟩, ?_, ?_⟩
  · simp [RedisString.create, cstringNew, h0, RedisModule_CreateString]
  · simp only [RedisString.from_ptr, RedisModule_StringPtrLen, utf8Decode_encode]

/-- C8 witness: the round-trip at a concrete context and text. -/
theorem create_from_ptr_roundtrip_witness :
    ∃ rs : RedisString, RedisString.create 0 "ab" = Except.ok rs ∧
      RedisString.from_ptr rs.inner = Except.ok "ab" :=
  create_from_ptr_roundtrip 0 "ab" (by decide)

/-- C9: creating a RedisString from text containing an embedded NUL
character panics (it never silently truncates), and creation from text
without an embedded NUL character always succeeds, storing the full byte
encoding of the text. -/
theorem create_nul_spec (ctx : Nat) (s : String) :
    (Char.ofNat 0 ∈ s.data → RedisString.create ctx s = Except.error Panicked.NulError) ∧
    (Char.ofNat 0 ∉ s.data → ∃ rs : RedisString,
      RedisString.create ctx s = Except.ok rs ∧ rs.inner.bytes = utf8Encode s.data) := by
  constructor
  · intro hmem
    have h0 : (0 : Nat) ∈ utf8Encode s.data := (zero_mem_utf8Encode_iff s.data).2 hmem
    simp [RedisString.create, cstringNew, h0]
  · intro hmem
    have h0 : (0 : Nat) ∉ utf8Encode s.data := fun hm =>
      hmem ((zero_mem_utf8Encode_iff s.data).1 hm)
    refine ⟨⟨ctx, ⟨utf8Encode s.data⟩⟩, ?_, rfl⟩
    simp [RedisString.create, cstringNew, h0, RedisModule_CreateString]

/-- C9 witness: creation panics at a concrete text with an embedded NUL
character. -/
theorem create_nul_spec_witness :
    RedisString.create 0 "a\x00b" = Except.error Panicked.NulError :=
  (create_nul_spec 0 "a\x00b").1 (by decide)

/-- Modelled from the spec: the key type classification exposed by the host
key handle (the key module is outside src); the claims only distinguish the
sorted-set type from the others. -/
inductive KeyType where
  | Empty : KeyType
  | Str : KeyType
  | List : KeyType
  | Hash : KeyType
  | Set : KeyType
  | ZSet : KeyType
  | Module : KeyType
  | Stream : KeyType
deriving DecidableEq, Repr

/-- Modelled from the spec: a host key handle with its type classification
and, for sorted-set keys, the member/score pairs in ascending score order
(the key module is outside src; scores model the f64 scores as integers,
which the claims never compute with). -/
structure RedisKey where
  keyType : KeyType
  elems : List (String × Int)
deriving DecidableEq, Repr

/-- Status from the raw bindings: the C status code of a host call. -/
inductive Status where
  | Ok : Status
  | Err : Status
deriving DecidableEq, Repr

/-- Host cursor and string primitives invoked by the iterator, recorded as a
call trace so that resource use is observable in theorems. -/
inductive HostCall where
  | zsetFirstInScoreRange : HostCall
  | zsetLastInScoreRange : HostCall
  | zsetRangeEndReached : HostCall
  | zsetRangeCurrentElement : HostCall
  | zsetRangeNext : HostCall
  | zsetRangePrev : HostCall
  | zsetRangeStop : HostCall
deriving DecidableEq, Repr

/-- Modelled from the spec: the host cursor state over a sorted-set key, the
not-yet-visited in-range members in visit order (ascending for a forward
cursor, descending for a backward cursor). -/
structure ZCursor where
  remaining : List String
deriving DecidableEq, Repr

/-- Modelled from the spec: the error taxonomy of the binding layer as used
by the iterator path; the crate root error type with its WrongType variant
and the redis_error macro are outside src, so the unsupported-range and
fixed-message failures are classified per the spec taxonomy. -/
inductive ZRedisError where
  | WrongArity : ZRedisError
  | WrongType : ZRedisError
  | UnsupportedRange : ZRedisError
  | FixedMessage : String → ZRedisError
  | OwnedMessage : String → ZRedisError
deriving DecidableEq, Repr

/-- Bound from std::ops as used by src/zset.rs, kept polymorphic in the score
representation exactly as the extraction logic is. -/
inductive Bound (α : Type) where
  | Included : α → Bound α
  | Excluded : α → Bound α
  | Unbounded : Bound α
deriving DecidableEq, Repr

/-- extract_bound from src/zset.rs: an included bound yields the value with
the exclusion flag false, an excluded bound yields it with the flag true,
and an unbounded bound fails with the unsupported-range error. -/
def extract_bound {α : Type} : Bound α → Except ZRedisError (α × Bool)
  | Bound.Included v => Except.ok (v, false)
  | Bound.Excluded v => Except.ok (v, true)
  | Bound.Unbounded => Except.error ZRedisError.UnsupportedRange

/-- Membership of a score in the configured interval, respecting the
per-side exclusion flags. -/
def scoreInRange (minv maxv : Int) (minex maxex : Bool) (s : Int) : Bool :=
  (if minex then decide (minv < s) else decide (minv ≤ s)) &&
  (if maxex then decide (s < maxv) else decide (s ≤ maxv))

/-- Modelled from the spec: RedisModule_ZsetFirstInScoreRange opens a forward
cursor positioned on the first in-range member, ascending by score (the raw
bindings are outside src). -/
def zsetFirstInScoreRange (key : RedisKey) (minv maxv : Int) (minex maxex : Bool) :
    Status × ZCursor :=
  (Status.Ok, ⟨(key.elems.filter (fun p => scoreInRange minv maxv minex maxex p.2)).map
    Prod.fst⟩)

/-- Modelled from the spec: RedisModule_ZsetLastInScoreRange opens a backward
cursor positioned on the last in-range member, descending by score (the raw
bindings are outside src). -/
def zsetLastInScoreRange (key : RedisKey) (minv maxv : Int) (minex maxex : Bool) :
    Status × ZCursor :=
  (Status.Ok, ⟨((key.elems.filter (fun p => scoreInRange minv maxv minex maxex p.2)).map
    Prod.fst).reverse⟩)

/-- Modelled from the spec: RedisModule_ZsetRangeEndReached holds when the
cursor has no further in-range member (the raw bindings are outside src). -/
def zsetRangeEndReached (c : ZCursor) : Bool :=
  c.remaining.isEmpty

/-- Modelled from the spec: RedisModule_ZsetRangeCurrentElement returns the
member under the cursor (the raw bindings are outside src; it is only
invoked when the end has not been reached). -/
def zsetRangeCurrentElement (c : ZCursor) : String :=
  c.remaining.headD ""

/-- Modelled from the spec: RedisModule_ZsetRangeNext advances a forward
cursor to the following in-range member (the raw bindings are outside
src). -/
def zsetRangeNext (c : ZCursor) : ZCursor :=
  ⟨c.remaining.tail⟩

/-- Modelled from the spec: RedisModule_ZsetRangePrev advances a backward
cursor to the preceding in-range member (the raw bindings are outside
src). -/
def zsetRangePrev (c : ZCursor) : ZCursor :=
  ⟨c.remaining.tail⟩

/-- Modelled from the spec: RedisString::from_redis_module_string wraps a
host string pointer handed back by the cursor as an owned string handle (the
function is outside src). -/
structure OwnedRedisString where
  member : String
deriving DecidableEq, Repr

deriving instance DecidableEq for Except

/-- The outcome of ZSetScoreIterator::new: the constructed cursor or the
error, together with the trace of host calls performed. -/
structure NewOutcome where
  result : Except ZRedisError ZCursor
  calls : List HostCall
deriving DecidableEq, Repr

/-- ZSetScoreIterator::new from src/zset.rs: reject a key that is not of
sorted-set type with WrongType before anything else, then extract both
bounds (failing on an unbounded side), then open the cursor through the
host primitive chosen by the direction flag, mapping a host error status to
a fixed-message error. -/
def ZSetScoreIterator.new (key : RedisKey) (startB endB : Bound Int) (last : Bool) :
    NewOutcome :=
  if key.keyType ≠ KeyType.ZSet then ⟨Except.error ZRedisError.WrongType, []⟩
  else
    match extract_bound startB with
    | Except.error e => ⟨Except.error e, []⟩
    | Except.ok (minv, minex) =>
      match extract_bound endB with
      | Except.error e => ⟨Except.error e, []⟩
      | Except.ok (maxv, maxex) =>
        let opened := if last then zsetLastInScoreRange key minv maxv minex maxex
          else zsetFirstInScoreRange key minv maxv minex maxex
        let call := if last then HostCall.zsetLastInScoreRange
          else HostCall.zsetFirstInScoreRange
        match opened.1 with
        | Status.Ok => ⟨Except.ok opened.2, [call]⟩
        | Status.Err =>
          ⟨Except.error (ZRedisError.FixedMessage "failed to create ZSet iterator"), [call]⟩

/-- The outcome of one advance step of the iterator: the element produced
(none signalling exhaustion), the cursor afterwards, and the trace of host
calls performed. -/
structure StepOutcome where
  item : Option OwnedRedisString
  cursor : ZCursor
  calls : List HostCall
deriving DecidableEq, Repr

/-- Iterator::next for ZSetScoreIterator from src/zset.rs: first test the
end-reached predicate and stop with no element if it holds; otherwise wrap
the current element as an owned string handle, advance through the next
primitive, and yield the element. -/
def ZSetScoreIterator.next (c : ZCursor) : StepOutcome :=
  if zsetRangeEndReached c then ⟨none, c, [HostCall.zsetRangeEndReached]⟩
  else
    ⟨some ⟨zsetRangeCurrentElement c⟩, zsetRangeNext c,
      [HostCall.zsetRangeEndReached, HostCall.zsetRangeCurrentElement,
        HostCall.zsetRangeNext]⟩

/-- DoubleEndedIterator::next_back for ZSetScoreIterator from src/zset.rs:
identical to the forward step except that it advances through the prev
primitive. -/
def ZSetScoreIterator.next_back (c : ZCursor) : StepOutcome :=
  if zsetRangeEndReached c then ⟨none, c, [HostCall.zsetRangeEndReached]⟩
  else
    ⟨some ⟨zsetRangeCurrentElement c⟩, zsetRangePrev c,
      [HostCall.zsetRangeEndReached, HostCall.zsetRangeCurrentElement,
        HostCall.zsetRangePrev]⟩

/-- Drop for ZSetScoreIterator from src/zset.rs: destruction of a constructed
iterator releases the cursor through the stop primitive; it runs only for a
value that was actually constructed. -/
def ZSetScoreIterator.drop : List HostCall :=
  [HostCall.zsetRangeStop]

/-- C1 counterexample: on a key that is not of sorted-set type, constructing
an iterator over a range with an unbounded lower bound fails with WrongType
and not with the unsupported-range error, because the key-type check runs
before the bounds are examined. -/
theorem new_unbounded_nonzset_gives_wrong_type :
    (ZSetScoreIterator.new ⟨KeyType.Str, []⟩ Bound.Unbounded (Bound.Included 0) false).result
      = Except.error ZRedisError.WrongType ∧
    ¬ (ZSetScoreIterator.new ⟨KeyType.Str, []⟩ Bound.Unbounded (Bound.Included 0)
        false).result = Except.error ZRedisError.UnsupportedRange := by
  decide

/-- C1 amended: for every key of sorted-set type, regardless of its contents,
constructing an iterator over a range with an unbounded lower or upper bound
fails with the unsupported-range error and performs no host call (no cursor
is opened); for a key of any other type construction fails with WrongType
instead. -/
theorem new_unbounded_spec (key : RedisKey) (startB endB : Bound Int) (last : Bool)
    (hk : key.keyType = KeyType.ZSet)
    (hu : startB = Bound.Unbounded ∨ endB = Bound.Unbounded) :
    (ZSetScoreIterator.new key startB endB last).result
      = Except.error ZRedisError.UnsupportedRange ∧
    (ZSetScoreIterator.new key startB endB last).calls = [] := by
  cases startB <;> cases endB <;>
    simp_all [ZSetScoreIterator.new, extract_bound]

/-- C1 witness: the amended claim at a concrete sorted-set key and an
unbounded lower bound. -/
theorem new_unbounded_spec_witness :
    (ZSetScoreIterator.new ⟨KeyType.ZSet, [("a", 1)]⟩ Bound.Unbounded (Bound.Included 0)
      false).result = Except.error ZRedisError.UnsupportedRange :=
  (new_unbounded_spec ⟨KeyType.ZSet, [("a", 1)]⟩ Bound.Unbounded (Bound.Included 0) false
    rfl (Or.inl rfl)).1

/-- C2: for every key that is not of sorted-set type, iterator construction
fails with WrongType and performs no host call at all: no cursor is opened
and no cursor-release call happens, so nothing is leaked by repeated failed
attempts, and the stop primitive belongs only to the destruction of a
successfully constructed iterator. -/
theorem new_wrong_type_spec (key : RedisKey) (startB endB : Bound Int) (last : Bool)
    (hk : key.keyType ≠ KeyType.ZSet) :
    (ZSetScoreIterator.new key startB endB last).result
      = Except.error ZRedisError.WrongType ∧
    (ZSetScoreIterator.new key startB endB last).calls = [] := by
  simp [ZSetScoreIterator.new, hk]

/-- C2 witness: construction on a concrete string-typed key. -/
theorem new_wrong_type_spec_witness :
    (ZSetScoreIterator.new ⟨KeyType.Str, []⟩ (Bound.Included 0) (Bound.Included 1)
      false).result = Except.error ZRedisError.WrongType ∧
    (ZSetScoreIterator.new ⟨KeyType.Str, []⟩ (Bound.Included 0) (Bound.Included 1)
      false).calls = [] :=
  new_wrong_type_spec ⟨KeyType.Str, []⟩ (Bound.Included 0) (Bound.Included 1) false
    (by decide)

/-- C3: every advance step, forward or backward, first evaluates the
end-reached predicate; when it holds the step yields no element, leaves the
cursor unchanged and performs no retrieval or advancement call; otherwise
the step yields the current element as an owned string handle and advances
the cursor, the forward accessor through the next primitive and the backward
accessor through the prev primitive. -/
theorem iterator_step_spec (c : ZCursor) :
    (zsetRangeEndReached c = true →
      ZSetScoreIterator.next c = ⟨none, c, [HostCall.zsetRangeEndReached]⟩ ∧
      ZSetScoreIterator.next_back c = ⟨none, c, [HostCall.zsetRangeEndReached]⟩) ∧
    (zsetRangeEndReached c = false →
      ZSetScoreIterator.next c = ⟨some ⟨zsetRangeCurrentElement c⟩, zsetRangeNext c,
        [HostCall.zsetRangeEndReached, HostCall.zsetRangeCurrentElement,
          HostCall.zsetRangeNext]⟩ ∧
      ZSetScoreIterator.next_back c = ⟨some ⟨zsetRangeCurrentElement c⟩, zsetRangePrev c,
        [HostCall.zsetRangeEndReached, HostCall.zsetRangeCurrentElement,
          HostCall.zsetRangePrev]⟩) := by
  constructor
  · intro h
    simp [ZSetScoreIterator.next, ZSetScoreIterator.next_back, h]
  · intro h
    simp [ZSetScoreIterator.next, ZSetScoreIterator.next_back, h]

/-- C3 witness: one forward step and one backward step on concrete
cursors. -/
theorem iterator_step_spec_witness :
    ZSetScoreIterator.next ⟨["a", "b"]⟩ = ⟨some ⟨"a"⟩, ⟨["b"]⟩,
      [HostCall.zsetRangeEndReached, HostCall.zsetRangeCurrentElement,
        HostCall.zsetRangeNext]⟩ ∧
    ZSetScoreIterator.next_back ⟨["b", "a"]⟩ = ⟨some ⟨"b"⟩, ⟨["a"]⟩,
      [HostCall.zsetRangeEndReached, HostCall.zsetRangeCurrentElement,
        HostCall.zsetRangePrev]⟩ :=
  ⟨((iterator_step_spec ⟨["a", "b"]⟩).2 (by decide)).1,
   ((iterator_step_spec ⟨["b", "a"]⟩).2 (by decide)).2⟩
